import Mathlib

/-!
Shallow embedding of the data-normalization and charting pipeline of
`src/plot_tool.py` (function `generate_plot`, lines 42-170), together with
proofs about the claims of the specification.

Modelling conventions:
* A pandas cell value is a `PyVal`: `vnone` stands both for `NaN`/missing and
  for Python `None`; numbers are modelled as `Int` (the claims only involve
  integer-valued cells); strings, booleans, lists and string-keyed dicts as in
  Python.
* A DataFrame row is an association list in column order (matching
  `row.to_dict()`), and a DataFrame is a column-name list plus a rectangular
  row list.
* `ast.literal_eval` is modelled by `literal_eval`, a fuelled recursive-descent
  parser for the Python literal subset actually exercised here: double- or
  single-quoted strings without escapes, integers, `True`/`False`/`None`,
  lists (with optional trailing comma) and dicts with string keys.
* Image bytes are not modelled: `Image.empty` stands for `Image(b"", "png")`
  (line 118 / line 170) and `Image.rendered i` for a PNG produced from the
  matplotlib calls, abstracted as the render instruction `i`.
-/

set_option autoImplicit false

namespace PlotTool

/-- A Python/pandas cell value. `vnone` models both `NaN` and `None`. -/
inductive PyVal where
  | vnone
  | vbool (b : Bool)
  | vint (n : Int)
  | vstr (s : String)
  | vlist (xs : List PyVal)
  | vdict (kvs : List (String × PyVal))
  deriving Repr

mutual

/-- Decidable equality on `PyVal` (the nested lists prevent `deriving`). -/
def PyVal.decEq : (a b : PyVal) → Decidable (a = b)
  | .vnone, b =>
      match b with
      | .vnone => isTrue rfl
      | .vbool _ => isFalse (fun h => nomatch h)
      | .vint _ => isFalse (fun h => nomatch h)
      | .vstr _ => isFalse (fun h => nomatch h)
      | .vlist _ => isFalse (fun h => nomatch h)
      | .vdict _ => isFalse (fun h => nomatch h)
  | .vbool a, b =>
      match b with
      | .vnone => isFalse (fun h => nomatch h)
      | .vbool c =>
          if h : a = c then isTrue (by rw [h])
          else isFalse (fun hh => h (by injection hh))
      | .vint _ => isFalse (fun h => nomatch h)
      | .vstr _ => isFalse (fun h => nomatch h)
      | .vlist _ => isFalse (fun h => nomatch h)
      | .vdict _ => isFalse (fun h => nomatch h)
  | .vint a, b =>
      match b with
      | .vnone => isFalse (fun h => nomatch h)
      | .vbool _ => isFalse (fun h => nomatch h)
      | .vint c =>
          if h : a = c then isTrue (by rw [h])
          else isFalse (fun hh => h (by injection hh))
      | .vstr _ => isFalse (fun h => nomatch h)
      | .vlist _ => isFalse (fun h => nomatch h)
      | .vdict _ => isFalse (fun h => nomatch h)
  | .vstr a, b =>
      match b with
      | .vnone => isFalse (fun h => nomatch h)
      | .vbool _ => isFalse (fun h => nomatch h)
      | .vint _ => isFalse (fun h => nomatch h)
      | .vstr c =>
          if h : a = c then isTrue (by rw [h])
          else isFalse (fun hh => h (by injection hh))
      | .vlist _ => isFalse (fun h => nomatch h)
      | .vdict _ => isFalse (fun h => nomatch h)
  | .vlist xs, b =>
      match b with
      | .vnone => isFalse (fun h => nomatch h)
      | .vbool _ => isFalse (fun h => nomatch h)
      | .vint _ => isFalse (fun h => nomatch h)
      | .vstr _ => isFalse (fun h => nomatch h)
      | .vlist ys =>
          match PyVal.decEqList xs ys with
          | isTrue h => isTrue (by rw [h])
          | isFalse h => isFalse (fun hh => h (by injection hh))
      | .vdict _ => isFalse (fun h => nomatch h)
  | .vdict xs, b =>
      match b with
      | .vnone => isFalse (fun h => nomatch h)
      | .vbool _ => isFalse (fun h => nomatch h)
      | .vint _ => isFalse (fun h => nomatch h)
      | .vstr _ => isFalse (fun h => nomatch h)
      | .vlist _ => isFalse (fun h => nomatch h)
      | .vdict ys =>
          match PyVal.decEqDict xs ys with
          | isTrue h => isTrue (by rw [h])
          | isFalse h => isFalse (fun hh => h (by injection hh))

/-- Decidable equality on lists of `PyVal`. -/
def PyVal.decEqList : (xs ys : List PyVal) → Decidable (xs = ys)
  | [], [] => isTrue rfl
  | [], _ :: _ => isFalse (fun h => nomatch h)
  | _ :: _, [] => isFalse (fun h => nomatch h)
  | x :: xs, y :: ys =>
      match PyVal.decEq x y with
      | isTrue h1 =>
          match PyVal.decEqList xs ys with
          | isTrue h2 => isTrue (by rw [h1, h2])
          | isFalse h2 => isFalse (fun hh => h2 (by injection hh))
      | isFalse h1 => isFalse (fun hh => h1 (by injection hh))

/-- Decidable equality on string-keyed association lists of `PyVal`. -/
def PyVal.decEqDict : (xs ys : List (String × PyVal)) → Decidable (xs = ys)
  | [], [] => isTrue rfl
  | [], _ :: _ => isFalse (fun h => nomatch h)
  | _ :: _, [] => isFalse (fun h => nomatch h)
  | (k, x) :: xs, (l, y) :: ys =>
      if hk : k = l then
        match PyVal.decEq x y with
        | isTrue h1 =>
            match PyVal.decEqDict xs ys with
            | isTrue h2 => isTrue (by rw [hk, h1, h2])
            | isFalse h2 => isFalse (fun hh => h2 (by injection hh))
        | isFalse h1 =>
            isFalse (fun hh => h1 (by injection hh with hh1 hh2; injection hh1))
      else isFalse (fun hh => hk (by injection hh with hh1 hh2; injection hh1))

end

instance : DecidableEq PyVal := PyVal.decEq

/-- A DataFrame row as produced by `row.to_dict()`: an association list in
column order. -/
abbrev Row : Type := List (String × PyVal)

/-- `row[k]` lookup: value of the first binding of key `k`. -/
def rowGet : Row → String → Option PyVal
  | [], _ => none
  | (k1, v1) :: rest, k => if k1 = k then some v1 else rowGet rest k

/-- Python dict assignment `row[k] = v`: replaces the first binding of `k`
in place, or appends a new binding at the end (dict insertion order). -/
def rowSet : Row → String → PyVal → Row
  | [], k, v => [(k, v)]
  | (k1, v1) :: rest, k, v =>
      if k1 = k then (k1, v) :: rest else (k1, v1) :: rowSet rest k v

/-- The opening brace character of a Python dict literal. -/
def lbrace : Char := Char.ofNat 123

/-- The closing brace character of a Python dict literal. -/
def rbrace : Char := Char.ofNat 125

/-- The single-quote character (alternative Python string delimiter). -/
def squote : Char := Char.ofNat 39

/-- Skip blanks (the only whitespace occurring in the modelled literals). -/
def skipWs : List Char → List Char
  | [] => []
  | c :: cs => if c = ' ' then skipWs cs else c :: cs

/-- Read a quoted string: everything up to the closing quote `q` (the modelled
literals contain no escape sequences). -/
def readStr (cs : List Char) (q : Char) : Option (String × List Char) :=
  match cs.dropWhile (fun c => c ≠ q) with
  | [] => none
  | _ :: rest => some (String.mk (cs.takeWhile (fun c => c ≠ q)), rest)

/-- Value of a digit list, most significant first. -/
def digitsVal (ds : List Char) : Nat :=
  ds.foldl (fun a c => a * 10 + (c.toNat - 48)) 0

/-- Read a (possibly negative) integer literal. -/
def readInt (cs : List Char) : Option (Int × List Char) :=
  match cs with
  | '-' :: rest =>
      match rest.takeWhile Char.isDigit with
      | [] => none
      | ds => some (-(Int.ofNat (digitsVal ds)), rest.dropWhile Char.isDigit)
  | _ =>
      match cs.takeWhile Char.isDigit with
      | [] => none
      | ds => some (Int.ofNat (digitsVal ds), cs.dropWhile Char.isDigit)

/-- `stripToken tok cs` removes the exact leading token `tok`. -/
def stripToken (tok : List Char) (cs : List Char) : Option (List Char) :=
  if cs.take tok.length = tok then some (cs.drop tok.length) else none

/-- Parser mode: a top-level value, or a partially read list/dict body
(accumulators in reverse order). -/
inductive PMode where
  | top
  | inList (acc : List PyVal)
  | inDict (acc : List (String × PyVal))

/-- Fuelled recursive-descent parser for the Python-literal subset accepted
by `ast.literal_eval` on the cell contents modelled here. -/
def parseF : Nat → PMode → List Char → Option (PyVal × List Char)
  | 0, _, _ => none
  | Nat.succ f, PMode.top, cs =>
      match skipWs cs with
      | [] => none
      | c :: rest =>
          if c = '[' then
            parseF f (PMode.inList []) rest
          else if c = lbrace then
            parseF f (PMode.inDict []) rest
          else if c = '"' then
            match readStr rest '"' with
            | some (s, rest2) => some (PyVal.vstr s, rest2)
            | none => none
          else if c = squote then
            match readStr rest squote with
            | some (s, rest2) => some (PyVal.vstr s, rest2)
            | none => none
          else if c = '-' ∨ c.isDigit then
            match readInt (c :: rest) with
            | some (n, rest2) => some (PyVal.vint n, rest2)
            | none => none
          else
            match stripToken "True".data (c :: rest) with
            | some rest2 => some (PyVal.vbool true, rest2)
            | none =>
                match stripToken "False".data (c :: rest) with
                | some rest2 => some (PyVal.vbool false, rest2)
                | none =>
                    match stripToken "None".data (c :: rest) with
                    | some rest2 => some (PyVal.vnone, rest2)
                    | none => none
  | Nat.succ f, PMode.inList acc, cs =>
      match skipWs cs with
      | [] => none
      | c :: rest =>
          if c = ']' then some (PyVal.vlist acc.reverse, rest)
          else
            match parseF f PMode.top (c :: rest) with
            | none => none
            | some (v, rest2) =>
                match skipWs rest2 with
                | ',' :: rest3 => parseF f (PMode.inList (v :: acc)) rest3
                | c2 :: rest3 =>
                    if c2 = ']' then some (PyVal.vlist (v :: acc).reverse, rest3)
                    else none
                | [] => none
  | Nat.succ f, PMode.inDict acc, cs =>
      match skipWs cs with
      | [] => none
      | c :: rest =>
          if c = rbrace then some (PyVal.vdict acc.reverse, rest)
          else
            match parseF f PMode.top (c :: rest) with
            | some (PyVal.vstr k, rest2) =>
                match skipWs rest2 with
                | ':' :: rest3 =>
                    match parseF f PMode.top rest3 with
                    | some (v, rest4) =>
                        match skipWs rest4 with
                        | ',' :: rest5 => parseF f (PMode.inDict ((k, v) :: acc)) rest5
                        | c2 :: rest5 =>
                            if c2 = rbrace then
                              some (PyVal.vdict ((k, v) :: acc).reverse, rest5)
                            else none
                        | [] => none
                    | none => none
                | _ => none
            | _ => none

/-- Model of `ast.literal_eval` on a string (src/plot_tool.py line 82, 105):
parse one literal and require only trailing blanks. -/
def literal_eval (s : String) : Option PyVal :=
  match parseF (2 * s.length + 2) PMode.top s.data with
  | some (v, rest) => if skipWs rest = [] then some v else none
  | none => none

/-- `ast.literal_eval` applied to a cell value: it raises on every non-string
argument (including `NaN`), modelled as `none`. -/
def evalCell : PyVal → Option PyVal
  | PyVal.vstr s => literal_eval s
  | _ => none

/-- A DataFrame: named columns plus rectangular rows (src/plot_tool.py
line 65: the table handed to the normalization pipeline). -/
structure Table where
  cols : List String
  rows : List Row
  deriving DecidableEq

/-- `data[col].dropna().iloc[0]` (lines 71, 102): the first non-missing value
of a column, or `none` when every cell is missing (the `IndexError` is caught
by the surrounding `except`). -/
def firstNonMissing (t : Table) (c : String) : Option PyVal :=
  t.rows.findSome? (fun r =>
    match rowGet r c with
    | some v => if v = PyVal.vnone then none else some v
    | none => none)

/-- `s.startswith(ch)` for a single character. -/
def strStartsWith (s : String) (c : Char) : Bool := s.data.head? = some c

/-- The per-column normalization decision of the spec (§4.2). -/
inductive ColClass where
  | scalar
  | record
  | listOfRecords
  deriving DecidableEq, Repr

/-- Column classification (lines 72-76 and line 103): single-sample heuristic
on the first non-missing value.  A column whose cells are all numeric has a
non-`object` dtype and is skipped by the source; its first non-missing value
is then not a string, so the `scalar` fallthrough here is equivalent. -/
def classify_column (t : Table) (c : String) : ColClass :=
  match firstNonMissing t c with
  | some (PyVal.vstr s) =>
      if strStartsWith s '[' && s.data.contains lbrace then ColClass.listOfRecords
      else if strStartsWith s lbrace then ColClass.record
      else ColClass.scalar
  | _ => ColClass.scalar

/-- Merging a nested record into a row copy (lines 87-88):
`for k, v in item.items(): new_row[k] = v`. -/
def mergeRecord (r : Row) (kvs : List (String × PyVal)) : Row :=
  kvs.foldl (fun acc kv => rowSet acc kv.1 kv.2) r

/-- The per-row body of the explosion loop (lines 80-93): the rows appended
to `expanded_rows` for one source row. -/
def explodeRow (c : String) (r : Row) : List Row :=
  match evalCell ((rowGet r c).getD PyVal.vnone) with
  | some (PyVal.vlist items) =>
      items.map (fun item =>
        match item with
        | PyVal.vdict kvs => mergeRecord r kvs
        | _ => r)
  | some _ => [r]
  | none => [r]

/-- Column set of `pd.DataFrame(list_of_dicts)`: union of the dict keys in
order of first appearance. -/
def unionCols (rows : List Row) : List String :=
  rows.foldl
    (fun acc r => r.foldl (fun a kv => if kv.1 ∈ a then a else a ++ [kv.1]) acc) []

/-- Rectangularization performed by `pd.DataFrame`: every row gets every
column, missing entries filled with `NaN`. -/
def reindex (cols : List String) (r : Row) : Row :=
  cols.map (fun c => (c, (rowGet r c).getD PyVal.vnone))

/-- `explode(T, C)` of the spec (§4.3) = lines 79-94 of the source:
explode each row of column `c` and rebuild the DataFrame. -/
def explode (t : Table) (c : String) : Table :=
  let newRows := (t.rows.map (explodeRow c)).flatten
  let newCols := unionCols newRows
  { cols := newCols, rows := newRows.map (reindex newCols) }

/-- The first column loop (lines 68-96).  `for col in data.columns` fixes the
iteration list to the columns of the table at loop entry; `data[col].dtype`
at line 69 raises an uncaught `KeyError` when a column vanished (explosion
that produced zero rows yields a DataFrame with no columns at all). -/
def flattenLoop : Table → List String → Except String Table
  | t, [] => Except.ok t
  | t, c :: rest =>
      if c ∈ t.cols then
        flattenLoop
          (if classify_column t c = ColClass.listOfRecords then explode t c else t) rest
      else Except.error "KeyError"

/-- Whether `lambda x: ast.literal_eval(x) if pd.notnull(x) else x` runs
without raising on this cell. -/
def cellDecodes (v : PyVal) : Bool :=
  decide (v = PyVal.vnone) || (evalCell v).isSome

/-- The value produced by that lambda for a cell on which it does not raise. -/
def decodedCell (v : PyVal) : PyVal :=
  if v = PyVal.vnone then v else (evalCell v).getD v

/-- One step of the second column loop (lines 99-108): decode a
record-classified column with `Series.apply`.  `apply` materializes a whole
new column, so one raising cell aborts the assignment and leaves the whole
column untouched (`except Exception: pass`). -/
def decodeRecordCol (t : Table) (c : String) : Table :=
  if classify_column t c = ColClass.record then
    if t.rows.all (fun r => cellDecodes ((rowGet r c).getD PyVal.vnone)) then
      { cols := t.cols,
        rows := t.rows.map
          (fun r => rowSet r c (decodedCell ((rowGet r c).getD PyVal.vnone))) }
    else t
  else t

/-- The second column loop (lines 99-108) over the post-explosion columns. -/
def decodeLoop (t : Table) : Table := t.cols.foldl decodeRecordCol t

/-- `pd.to_numeric` on one string: optional blanks, optional minus sign,
digits (integer-valued cells suffice for every claim). -/
def strToNumeric (s : String) : Option Int :=
  match readInt (skipWs s.data) with
  | some (n, rest) => if skipWs rest = [] then some n else none
  | none => none

/-- `pd.to_numeric(cell, errors="coerce")`: unconvertible values become
`NaN`; booleans convert to 0/1. -/
def toNumeric : PyVal → PyVal
  | PyVal.vint n => PyVal.vint n
  | PyVal.vbool b => PyVal.vint (if b then 1 else 0)
  | PyVal.vstr s =>
      match strToNumeric s with
      | some n => PyVal.vint n
      | none => PyVal.vnone
  | _ => PyVal.vnone

/-- `coerce_numeric(table, column)` of the spec (§4.4) = lines 110-113:
coerce the column to numeric, then `dropna(subset=[column])`; a no-op when
the column is absent. -/
def coerce_numeric (t : Table) (c : String) : Table :=
  if c ∈ t.cols then
    { cols := t.cols,
      rows :=
        (t.rows.map
            (fun r => rowSet r c (toNumeric ((rowGet r c).getD PyVal.vnone)))).filter
          (fun r => decide ((rowGet r c).getD PyVal.vnone ≠ PyVal.vnone)) }
  else t

/-- `str.lower()` modelled on the character list (the iterator-based
`String.toLower` of the standard library does not reduce in the kernel). -/
def strToLower (s : String) : String := String.mk (s.data.map Char.toLower)

/-- Decidable equality for `Except`, needed to state closed facts about the
pipeline by `decide`. -/
def exceptDecEq {e a : Type} [DecidableEq e] [DecidableEq a] :
    DecidableEq (Except e a) := fun x y =>
  match x, y with
  | Except.ok u, Except.ok v =>
      if h : u = v then isTrue (by rw [h])
      else isFalse (fun hh => h (by injection hh))
  | Except.error u, Except.error v =>
      if h : u = v then isTrue (by rw [h])
      else isFalse (fun hh => h (by injection hh))
  | Except.ok _, Except.error _ => isFalse (fun h => nomatch h)
  | Except.error _, Except.ok _ => isFalse (fun h => nomatch h)

instance {e a : Type} [DecidableEq e] [DecidableEq a] : DecidableEq (Except e a) :=
  exceptDecEq

/-- Lexicographic order on character lists by code point: the order Python
uses to compare strings (and hence the order of sorted string group keys). -/
def charListLe : List Char → List Char → Bool
  | [], _ => true
  | _ :: _, [] => false
  | a :: as, b :: bs =>
      if a.toNat < b.toNat then true
      else if b.toNat < a.toNat then false
      else charListLe as bs

/-- `s <= t` on Python strings. -/
def strLe (s t : String) : Bool := charListLe s.data t.data

/-- Kind rank used to compare unequal-kind group keys. -/
def pyRank : PyVal → Nat
  | PyVal.vnone => 0
  | PyVal.vbool _ => 1
  | PyVal.vint _ => 2
  | PyVal.vstr _ => 3
  | PyVal.vlist _ => 4
  | PyVal.vdict _ => 5

/-- Group-key order of `DataFrame.groupby` (default `sort=True`, lines 124,
134, 144): integers numerically, strings lexicographically by code
point; other or unequal-kind keys by a fixed kind rank (such group columns
do not occur in any claim). -/
def pyLeB : PyVal → PyVal → Bool
  | PyVal.vint m, PyVal.vint n => decide (m ≤ n)
  | PyVal.vstr s, PyVal.vstr t => strLe s t
  | a, b => decide (pyRank a ≤ pyRank b)

/-- `pyLeB` as a relation, for `List.insertionSort`. -/
def pyLeP (a b : PyVal) : Prop := pyLeB a b = true

instance : DecidableRel pyLeP := fun a b => by unfold pyLeP; infer_instance

/-- `str(key)` for a group label (line 125 etc.); list/dict keys cannot reach
a `groupby` in the modelled tables, so their rendering is immaterial. -/
def pyStr : PyVal → String
  | PyVal.vnone => "None"
  | PyVal.vbool b => if b then "True" else "False"
  | PyVal.vint n => toString n
  | PyVal.vstr s => s
  | PyVal.vlist _ => "[...]"
  | PyVal.vdict _ => "\x7b...\x7d"

/-- Distinct non-missing values of a column in first-occurrence order
(`groupby` drops `NaN` keys). -/
def distinctFirstOcc (t : Table) (c : String) : List PyVal :=
  t.rows.foldl
    (fun acc r =>
      match rowGet r c with
      | some v =>
          if v = PyVal.vnone then acc
          else if v ∈ acc then acc else acc ++ [v]
      | none => acc) []

/-- The group keys in the order `groupby` enumerates them: sorted. -/
def sortedKeys (t : Table) (c : String) : List PyVal :=
  List.insertionSort pyLeP (distinctFirstOcc t c)

/-- The `(x_col, y_col)` pairs of a row list, in row order. -/
def pointsOf (rows : List Row) (x y : String) : List (PyVal × PyVal) :=
  rows.map (fun r => ((rowGet r x).getD PyVal.vnone, (rowGet r y).getD PyVal.vnone))

/-- `if group_col and group_col in data.columns` (lines 123, 133, 143):
the effective grouping column, if any (`""` and `None` are falsy). -/
def groupCond (t : Table) (g : Option String) : Option String :=
  match g with
  | some s => if s ≠ "" ∧ s ∈ t.cols then some s else none
  | none => none

/-- The rows of one `groupby` partition, in original row order. -/
def groupRows (t : Table) (c : String) (k : PyVal) : List Row :=
  t.rows.filter (fun r => decide (rowGet r c = some k))

/-- The series drawn by one plotting branch (lines 122-151): one labelled
series per group key in `groupby` order, or a single unlabelled series;
`grp[x_col]`/`data[x_col]` raises `KeyError` when the column is absent (for
the grouped branches only if at least one group exists, since the loop body
otherwise never runs). -/
def buildSeries (t : Table) (x y : String) (g : Option String) :
    Except String (List (Option String × List (PyVal × PyVal))) :=
  match groupCond t g with
  | some gc =>
      let ks := sortedKeys t gc
      if ks = [] then Except.ok []
      else if x ∈ t.cols ∧ y ∈ t.cols then
        Except.ok (ks.map (fun k => (some (pyStr k), pointsOf (groupRows t gc k) x y)))
      else Except.error "KeyError"
  | none =>
      if x ∈ t.cols ∧ y ∈ t.cols then
        Except.ok [(none, pointsOf t.rows x y)]
      else Except.error "KeyError"

/-- The chart-kind-tagged series collection handed to matplotlib. -/
structure RenderInstr where
  kind : String
  series : List (Option String × List (PyVal × PyVal))
  deriving DecidableEq

/-- The return value of `generate_plot`: `empty` is `Image(b"", "png")`
(lines 118 and 170); `rendered` abstracts a PNG actually drawn from the
series (lines 120-166). -/
inductive Image where
  | empty
  | rendered (instr : RenderInstr)
  deriving DecidableEq

/-- The body of the `try` block of `generate_plot` (lines 64-166), with every
internal `raise` surfaced as `Except.error`: flatten loop, record-decode
loop, numeric coercion of `y_col`, empty-result short-circuit (line 116),
kind dispatch (lines 122-153). -/
def pipeline (t : Table) (plot_type x_col y_col : String)
    (group_col : Option String) : Except String Image :=
  match flattenLoop t t.cols with
  | Except.error e => Except.error e
  | Except.ok t1 =>
      let t3 := coerce_numeric (decodeLoop t1) y_col
      if t3.rows = [] then Except.ok Image.empty
      else
        let k := strToLower plot_type
        if k = "line" ∨ k = "bar" ∨ k = "scatter" then
          match buildSeries t3 x_col y_col group_col with
          | Except.ok ss => Except.ok (Image.rendered { kind := k, series := ss })
          | Except.error e => Except.error e
        else Except.error (String.append "Unsupported plot type: " plot_type)

/-- `generate_plot` (lines 42-170): the whole body is wrapped in
`try ... except Exception: return Image(b"", format="png")`. -/
def generate_plot (t : Table) (plot_type x_col y_col : String)
    (group_col : Option String) : Image :=
  match pipeline t plot_type x_col y_col group_col with
  | Except.ok i => i
  | Except.error _ => Image.empty

/-! ### Claim-side definitions

Formalizations of the spec text itself, for comparison with the behavior of
the definitions above (which are translated from the source). -/

/-- The spec's claimed per-row contribution to the exploded row count
(§4.3, §8): `max(1, number of parsed list elements)`, with a parse failure
or a non-list value contributing 1. -/
def claimedRowContribution (c : String) (r : Row) : Nat :=
  match evalCell ((rowGet r c).getD PyVal.vnone) with
  | some (PyVal.vlist items) => max 1 items.length
  | _ => 1

/-- The spec's claimed total exploded row count. -/
def claimedExplodeCount (t : Table) (c : String) : Nat :=
  (t.rows.map (claimedRowContribution c)).sum

/-- The per-row contribution the source actually makes (lines 83-93):
`N` for a cell parsing to an `N`-element list — including 0 — else 1. -/
def codeRowContribution (c : String) (r : Row) : Nat :=
  match evalCell ((rowGet r c).getD PyVal.vnone) with
  | some (PyVal.vlist items) => items.length
  | _ => 1

/-- The series list the spec claims for the grouped case (§4.5): one series
per distinct group value in first-occurrence order. -/
def firstOccurrenceSeries (t : Table) (x y gc : String) :
    List (Option String × List (PyVal × PyVal)) :=
  (distinctFirstOcc t gc).map
    (fun k => (some (pyStr k), pointsOf (groupRows t gc k) x y))

/-! ### Concrete tables used by witnesses and counterexamples -/

/-- Two rows whose `c` cells parse to a 1-element and a 0-element list. -/
def tListEmpty : Table :=
  Table.mk ["c"] [[("c", PyVal.vstr "[\x7b\"a\": 1\x7d]")], [("c", PyVal.vstr "[]")]]

/-- Group column with values in the order B, A (not alphabetical). -/
def tGroup : Table :=
  Table.mk ["x", "y", "g"]
    [[("x", PyVal.vint 1), ("y", PyVal.vint 5), ("g", PyVal.vstr "B")],
     [("x", PyVal.vint 2), ("y", PyVal.vint 7), ("g", PyVal.vstr "A")]]

/-- A record-classified column where the first cell decodes and the second
does not. -/
def tRecordMixed : Table :=
  Table.mk ["c"] [[("c", PyVal.vstr "\x7b\"a\": 1\x7d")], [("c", PyVal.vstr "nope")]]

/-- A record-classified column where every non-missing cell decodes. -/
def tRecordOk : Table :=
  Table.mk ["c"] [[("c", PyVal.vstr "\x7b\"a\": 1\x7d")], [("c", PyVal.vnone)]]

/-- A clean one-row numeric table. -/
def tGood : Table := Table.mk ["x", "y"] [[("x", PyVal.vint 1), ("y", PyVal.vint 2)]]

/-- A table whose only `y` cell is not numeric: empty after coercion. -/
def tNoData : Table := Table.mk ["x", "y"] [[("x", PyVal.vint 1), ("y", PyVal.vstr "bad")]]

/-- A table without the requested x column. -/
def tMissingX : Table := Table.mk ["a", "y"] [[("a", PyVal.vint 1), ("y", PyVal.vint 2)]]

/-- The row of the spec's merge-precedence example (§8): `Name="A"` with a
nested `[\x7b"Name": "B", "Score": 5\x7d]` cell. -/
def rMerge : Row :=
  [("Name", PyVal.vstr "A"), ("c", PyVal.vstr "[\x7b\"Name\": \"B\", \"Score\": 5\x7d]")]

/-- The fields of that nested record. -/
def kvsMerge : List (String × PyVal) :=
  [("Name", PyVal.vstr "B"), ("Score", PyVal.vint 5)]

/-- A list-of-records column whose first sample is `"[\x7b\"a\":1\x7d]"`
(the spec's §8 classification example). -/
def tClassify : Table :=
  Table.mk ["c"] [[("c", PyVal.vstr "[\x7b\"a\":1\x7d]")], [("c", PyVal.vstr "plain")]]

/-! ### Helper lemmas -/

theorem rowGet_rowSet_self (r : Row) (k : String) (v : PyVal) :
    rowGet (rowSet r k v) k = some v := by
  induction r with
  | nil => simp [rowSet, rowGet]
  | cons p rest ih =>
      obtain ⟨k1, v1⟩ := p
      by_cases h : k1 = k
      · simp [rowSet, h, rowGet]
      · simp [rowSet, h, rowGet, ih]

theorem rowGet_rowSet_ne (r : Row) (k k2 : String) (v : PyVal) (h : k ≠ k2) :
    rowGet (rowSet r k v) k2 = rowGet r k2 := by
  induction r with
  | nil => simp [rowSet, rowGet, h]
  | cons p rest ih =>
      obtain ⟨k1, v1⟩ := p
      by_cases h1 : k1 = k
      · subst h1
        simp [rowSet, rowGet, h]
      · simp [rowSet, h1, rowGet, ih]

theorem rowSet_self (r : Row) (k : String) (v : PyVal) (h : rowGet r k = some v) :
    rowSet r k v = r := by
  induction r with
  | nil => simp [rowGet] at h
  | cons p rest ih =>
      obtain ⟨k1, v1⟩ := p
      by_cases h1 : k1 = k
      · subst h1
        simp [rowGet] at h
        simp [rowSet, h]
      · simp [rowGet, h1] at h
        simp [rowSet, h1, ih h]

theorem rowGet_mergeRecord_not_mem (kvs : List (String × PyVal)) (r : Row) (k : String)
    (h : k ∉ kvs.map Prod.fst) : rowGet (mergeRecord r kvs) k = rowGet r k := by
  induction kvs generalizing r with
  | nil => rfl
  | cons p rest ih =>
      obtain ⟨k1, v1⟩ := p
      simp only [List.map_cons, List.mem_cons, not_or] at h
      obtain ⟨h1, h2⟩ := h
      have e : mergeRecord r ((k1, v1) :: rest) = mergeRecord (rowSet r k1 v1) rest := rfl
      rw [e, ih (rowSet r k1 v1) h2]
      exact rowGet_rowSet_ne r k1 k v1 (fun he => h1 he.symm)

theorem rowGet_mergeRecord_unique (kvs : List (String × PyVal)) (r : Row) (k : String)
    (v : PyVal) (hcount : (kvs.map Prod.fst).count k = 1) (hmem : (k, v) ∈ kvs) :
    rowGet (mergeRecord r kvs) k = some v := by
  induction kvs generalizing r with
  | nil => simp at hmem
  | cons p rest ih =>
      obtain ⟨k1, v1⟩ := p
      have e : mergeRecord r ((k1, v1) :: rest) = mergeRecord (rowSet r k1 v1) rest := rfl
      by_cases h1 : k1 = k
      · subst h1
        have hz : (rest.map Prod.fst).count k1 = 0 := by
          simp [List.count_cons] at hcount
          omega
        have hrest : k1 ∉ rest.map Prod.fst := List.count_eq_zero.mp hz
        have hv : v = v1 := by
          rcases List.mem_cons.mp hmem with heq | hm
          · exact congrArg Prod.snd heq
          · exact absurd (List.mem_map.mpr ⟨(k1, v), hm, rfl⟩) hrest
        rw [e, rowGet_mergeRecord_not_mem rest _ _ hrest, rowGet_rowSet_self, hv]
      · have hc : (rest.map Prod.fst).count k = 1 := by
          simp [List.count_cons, h1] at hcount
          simpa using hcount
        have hm : (k, v) ∈ rest := by
          rcases List.mem_cons.mp hmem with heq | hm
          · exact absurd (congrArg Prod.fst heq).symm h1
          · exact hm
        rw [e]
        exact ih (rowSet r k1 v1) hc hm

theorem list_map_congr {α β : Type} (l : List α) (f g : α → β)
    (h : ∀ a ∈ l, f a = g a) : l.map f = l.map g := by
  induction l with
  | nil => rfl
  | cons a l ih =>
      simp only [List.map_cons, h a (by simp)]
      rw [ih (fun b hb => h b (by simp [hb]))]

theorem list_map_id_of {α : Type} (l : List α) (f : α → α) (h : ∀ a ∈ l, f a = a) :
    l.map f = l := by
  induction l with
  | nil => rfl
  | cons a l ih =>
      simp only [List.map_cons, h a (by simp)]
      rw [ih (fun b hb => h b (by simp [hb]))]

theorem toNumeric_cases (v : PyVal) :
    (∃ n : Int, toNumeric v = PyVal.vint n) ∨ toNumeric v = PyVal.vnone := by
  cases v with
  | vint n => exact Or.inl ⟨n, rfl⟩
  | vbool b => exact Or.inl ⟨if b then 1 else 0, rfl⟩
  | vstr s =>
      cases h : strToNumeric s with
      | some n => exact Or.inl ⟨n, by simp [toNumeric, h]⟩
      | none => exact Or.inr (by simp [toNumeric, h])
  | vnone => exact Or.inr rfl
  | vlist xs => exact Or.inr rfl
  | vdict kvs => exact Or.inr rfl

theorem explodeRow_length (c : String) (r : Row) :
    (explodeRow c r).length = codeRowContribution c r := by
  cases h : evalCell ((rowGet r c).getD PyVal.vnone) with
  | none => simp [explodeRow, codeRowContribution, h]
  | some v => cases v <;> simp [explodeRow, codeRowContribution, h]

/-! ### Claims -/

/-- C1: the claim states the exploded row count is the sum over input rows of
`max(1, number of parsed list elements)`, with an empty-list cell contributing
one output row.  False on the source: the loop `for item in items` appends
nothing for an empty list, so such a row contributes zero output rows.
In `tListEmpty` the two cells parse to a 1-element and a 0-element list:
the source produces 1 row where the claim demands 2. -/
theorem c1_counterexample :
    classify_column tListEmpty "c" = ColClass.listOfRecords
    ∧ (explode tListEmpty "c").rows.length = 1
    ∧ claimedExplodeCount tListEmpty "c" = 2
    ∧ (explode tListEmpty "c").rows.length ≠ claimedExplodeCount tListEmpty "c" := by
  decide

/-- C1 (amended): for every table and column, the exploded table's row count
equals the sum over input rows of the number of parsed list elements when the
cell parses to a list — zero for an empty list — and 1 for a row whose cell
fails to parse or parses to a non-list value. -/
theorem explode_row_count (t : Table) (c : String) :
    (explode t c).rows.length = (t.rows.map (codeRowContribution c)).sum := by
  simp only [explode, List.length_map, List.length_flatten, List.map_map]
  exact congrArg List.sum
    (list_map_congr _ _ _ (fun r _ => explodeRow_length c r))

/-- C6: an exploded output row is the source row with the record's fields
merged in, a merged field overwriting any existing column of the same name
and untouched columns passing through; the spec's §8 example (`Name="A"`
overwritten by `{"Name":"B","Score":5}`) is the witness. -/
theorem explode_merge_semantics (r : Row) (c : String) (items : List PyVal) (i : Nat)
    (kvs : List (String × PyVal))
    (h1 : evalCell ((rowGet r c).getD PyVal.vnone) = some (PyVal.vlist items))
    (h2 : items[i]? = some (PyVal.vdict kvs)) :
    (explodeRow c r)[i]? = some (mergeRecord r kvs)
    ∧ (∀ k, k ∉ kvs.map Prod.fst → rowGet (mergeRecord r kvs) k = rowGet r k)
    ∧ (∀ k v, (kvs.map Prod.fst).count k = 1 → (k, v) ∈ kvs →
        rowGet (mergeRecord r kvs) k = some v) := by
  refine ⟨?_, fun k hk => rowGet_mergeRecord_not_mem kvs r k hk,
    fun k v hc hm => rowGet_mergeRecord_unique kvs r k v hc hm⟩
  have e : explodeRow c r
      = items.map (fun item =>
          match item with
          | PyVal.vdict kvs => mergeRecord r kvs
          | _ => r) := by
    simp [explodeRow, h1]
  rw [e, List.getElem?_map, h2]
  rfl

theorem coerce_numeric_cols (t : Table) (c : String) :
    (coerce_numeric t c).cols = t.cols := by
  unfold coerce_numeric
  split <;> rfl

theorem coerce_numeric_mem_vint (t : Table) (c : String) (hc : c ∈ t.cols) :
    ∀ r ∈ (coerce_numeric t c).rows, ∃ n : Int, rowGet r c = some (PyVal.vint n) := by
  intro r hr
  unfold coerce_numeric at hr
  rw [if_pos hc] at hr
  simp only [List.mem_filter, List.mem_map] at hr
  obtain ⟨⟨r0, hr0, rfl⟩, hp⟩ := hr
  have hget : rowGet (rowSet r0 c (toNumeric ((rowGet r0 c).getD PyVal.vnone))) c
      = some (toNumeric ((rowGet r0 c).getD PyVal.vnone)) := rowGet_rowSet_self _ _ _
  rcases toNumeric_cases ((rowGet r0 c).getD PyVal.vnone) with ⟨n, hn⟩ | hn
  · exact ⟨n, by rw [hget, hn]⟩
  · rw [hget, hn] at hp
    simp at hp

theorem coerce_numeric_fixed (t : Table) (c : String)
    (h : ∀ r ∈ t.rows,
        rowSet r c (toNumeric ((rowGet r c).getD PyVal.vnone)) = r
        ∧ decide ((rowGet r c).getD PyVal.vnone ≠ PyVal.vnone) = true) :
    coerce_numeric t c = t := by
  by_cases hc : c ∈ t.cols
  · unfold coerce_numeric
    rw [if_pos hc,
      list_map_id_of _ _ (fun r hr => (h r hr).1),
      List.filter_eq_self.mpr (fun r hr => (h r hr).2)]
  · unfold coerce_numeric
    rw [if_neg hc]

/-- C5: column classification is a function of the first non-missing value
alone — the listed string tests on that value decide the class, and appending
any later rows (and renaming the column list) leaves the decision unchanged. -/
theorem classify_column_single_sample (t : Table) (c : String) (s : String)
    (h : firstNonMissing t c = some (PyVal.vstr s)) :
    classify_column t c
      = (if strStartsWith s '[' && s.data.contains lbrace then ColClass.listOfRecords
         else if strStartsWith s lbrace then ColClass.record
         else ColClass.scalar)
    ∧ ∀ (cols2 : List String) (extra : List Row),
        classify_column (Table.mk cols2 (t.rows ++ extra)) c = classify_column t c := by
  constructor
  · unfold classify_column
    rw [h]
  · intro cols2 extra
    have hfn : firstNonMissing (Table.mk cols2 (t.rows ++ extra)) c
        = firstNonMissing t c := by
      unfold firstNonMissing at h ⊢
      rw [List.findSome?_append, h]
      rfl
    unfold classify_column
    rw [hfn]

/-- Witness for C5 at the spec's §8 example: first sample `"[\x7b\"a\":1\x7d]"`
classifies as list-of-records, and the decision survives appending a plain
scalar row. -/
theorem c5_witness :
    classify_column tClassify "c" = ColClass.listOfRecords
    ∧ classify_column
        (Table.mk tClassify.cols (tClassify.rows ++ ([[("c", PyVal.vstr "9")]] : List Row))) "c"
      = classify_column tClassify "c" := by
  have h := classify_column_single_sample tClassify "c" "[\x7b\"a\":1\x7d]" (by decide)
  refine ⟨?_, h.2 tClassify.cols ([[("c", PyVal.vstr "9")]] : List Row)⟩
  rw [h.1]
  decide

/-- C4: the claim states each cell of a record-classified column is decoded
independently, a failing cell being left raw while the others are decoded.
False on the source: the decode runs through one `Series.apply`, so the
failing second cell of `tRecordMixed` aborts the whole column and the
perfectly decodable first cell is also left as its raw string. -/
theorem c4_counterexample :
    classify_column tRecordMixed "c" = ColClass.record
    ∧ (evalCell (PyVal.vstr "\x7b\"a\": 1\x7d")).isSome = true
    ∧ evalCell (PyVal.vstr "nope") = none
    ∧ decodeRecordCol tRecordMixed "c" = tRecordMixed
    ∧ rowGet ((decodeRecordCol tRecordMixed "c").rows.headD []) "c"
        = some (PyVal.vstr "\x7b\"a\": 1\x7d") := by
  decide

/-- C4 (amended): decoding a record-classified column is all-or-nothing at
column granularity: if any cell fails to decode the entire column is left
with its original raw values (and the table is not aborted), and only when
every non-missing cell decodes is every cell replaced by its decoded value. -/
theorem decodeRecordCol_all_or_nothing (t : Table) (c : String)
    (h : classify_column t c = ColClass.record) :
    ((∃ r ∈ t.rows, cellDecodes ((rowGet r c).getD PyVal.vnone) = false) →
        decodeRecordCol t c = t)
    ∧ ((∀ r ∈ t.rows, cellDecodes ((rowGet r c).getD PyVal.vnone) = true) →
        (decodeRecordCol t c).cols = t.cols
        ∧ ∀ (i : Nat) (r : Row), t.rows[i]? = some r →
            (decodeRecordCol t c).rows[i]?
              = some (rowSet r c (decodedCell ((rowGet r c).getD PyVal.vnone)))) := by
  constructor
  · rintro ⟨r, hr, hf⟩
    have hfalse :
        ¬ (t.rows.all (fun r => cellDecodes ((rowGet r c).getD PyVal.vnone)) = true) := by
      rw [List.all_eq_true]
      intro hall
      rw [hall r hr] at hf
      exact absurd hf (by simp)
    unfold decodeRecordCol
    rw [if_pos h, if_neg hfalse]
  · intro hall
    have htrue : t.rows.all (fun r => cellDecodes ((rowGet r c).getD PyVal.vnone)) = true :=
      List.all_eq_true.mpr hall
    unfold decodeRecordCol
    rw [if_pos h, if_pos htrue]
    refine ⟨rfl, fun i r hi => ?_⟩
    rw [List.getElem?_map, hi]
    rfl

/-- Witness for C4 (amended): the mixed column passes through unchanged; the
fully decodable column is decoded cell by cell. -/
theorem c4_witness :
    decodeRecordCol tRecordMixed "c" = tRecordMixed
    ∧ (decodeRecordCol tRecordOk "c").rows[0]?
        = some (rowSet [("c", PyVal.vstr "\x7b\"a\": 1\x7d")] "c"
            (decodedCell ((rowGet [("c", PyVal.vstr "\x7b\"a\": 1\x7d")] "c").getD
              PyVal.vnone)))
    ∧ (decodeRecordCol tRecordOk "c").rows
        = [[("c", PyVal.vdict [("a", PyVal.vint 1)])], [("c", PyVal.vnone)]] := by
  refine ⟨(decodeRecordCol_all_or_nothing tRecordMixed "c" (by decide)).1
      ⟨[("c", PyVal.vstr "nope")], by decide, by decide⟩, ?_, by decide⟩
  exact ((decodeRecordCol_all_or_nothing tRecordOk "c" (by decide)).2 (by decide)).2
    0 [("c", PyVal.vstr "\x7b\"a\": 1\x7d")] (by decide)

/-- C7: after numeric coercion of column `c`, either every remaining cell of
`c` is a (non-missing) number, or the table is empty — vacuously covered by
the same quantifier — and when `c` is absent the step is the identity. -/
theorem coerce_numeric_spec (t : Table) (c : String) :
    (c ∈ t.cols →
        ∀ r ∈ (coerce_numeric t c).rows, ∃ n : Int, rowGet r c = some (PyVal.vint n))
    ∧ (c ∉ t.cols → coerce_numeric t c = t) := by
  refine ⟨fun hc => coerce_numeric_mem_vint t c hc, fun hc => ?_⟩
  unfold coerce_numeric
  rw [if_neg hc]

/-- Witness for C7: a present column is fully numeric afterwards (and here
non-empty); an absent column is a no-op. -/
theorem c7_witness :
    (∀ r ∈ (coerce_numeric tGood "y").rows, ∃ n : Int, rowGet r "y" = some (PyVal.vint n))
    ∧ coerce_numeric tGood "z" = tGood
    ∧ (coerce_numeric tGood "y").rows ≠ [] :=
  ⟨(coerce_numeric_spec tGood "y").1 (by decide),
   (coerce_numeric_spec tGood "z").2 (by decide), by decide⟩

/-- C8: numeric coercion is idempotent — the second application leaves every
surviving row untouched and drops nothing further. -/
theorem coerce_numeric_idempotent (t : Table) (c : String) :
    coerce_numeric (coerce_numeric t c) c = coerce_numeric t c := by
  by_cases hc : c ∈ t.cols
  · apply coerce_numeric_fixed
    intro r hr
    obtain ⟨n, hn⟩ := coerce_numeric_mem_vint t c hc r hr
    refine ⟨?_, by simp [hn]⟩
    rw [hn]
    exact rowSet_self r c (PyVal.vint n) hn
  · have e : coerce_numeric t c = t := by
      unfold coerce_numeric
      rw [if_neg hc]
    rw [e, e]

theorem charListLe_total (as : List Char) :
    ∀ bs, charListLe as bs = true ∨ charListLe bs as = true := by
  induction as with
  | nil => intro bs; exact Or.inl rfl
  | cons a as ih =>
      intro bs
      cases bs with
      | nil => exact Or.inr rfl
      | cons b bs =>
          rcases Nat.lt_trichotomy a.toNat b.toNat with h | h | h
          · left
            simp [charListLe, h]
          · rcases ih bs with h2 | h2
            · left
              simp [charListLe, h, h2]
            · right
              simp [charListLe, h, h2]
          · right
            simp [charListLe, h]

theorem charListLe_trans (as : List Char) :
    ∀ bs cs, charListLe as bs = true → charListLe bs cs = true →
      charListLe as cs = true := by
  induction as with
  | nil => intro bs cs _ _; rfl
  | cons a as ih =>
      intro bs cs hab hbc
      cases bs with
      | nil => simp [charListLe] at hab
      | cons b bs =>
          cases cs with
          | nil => simp [charListLe] at hbc
          | cons c cs =>
              simp only [charListLe] at hab hbc ⊢
              rcases Nat.lt_trichotomy a.toNat b.toNat with h1 | h1 | h1
              · rcases Nat.lt_trichotomy b.toNat c.toNat with h2 | h2 | h2
                · simp [Nat.lt_trans h1 h2]
                · simp [h2 ▸ h1]
                · rw [if_neg (Nat.lt_asymm h2), if_pos h2] at hbc
                  exact absurd hbc (by simp)
              · rw [if_neg (by omega), if_neg (by omega)] at hab
                rcases Nat.lt_trichotomy b.toNat c.toNat with h2 | h2 | h2
                · simp [show a.toNat < c.toNat by omega]
                · rw [if_neg (by omega), if_neg (by omega)] at hbc
                  rw [if_neg (by omega), if_neg (by omega)]
                  exact ih bs cs hab hbc
                · rw [if_neg (Nat.lt_asymm h2), if_pos h2] at hbc
                  exact absurd hbc (by simp)
              · rw [if_neg (Nat.lt_asymm h1), if_pos h1] at hab
                exact absurd hab (by simp)

instance : IsTotal PyVal pyLeP := by
  constructor
  intro a b
  cases a <;> cases b <;>
    simp only [pyLeP, pyLeB, pyRank, strLe, decide_eq_true_eq] <;>
    first
      | omega
      | exact charListLe_total _ _

instance : IsTrans PyVal pyLeP := by
  constructor
  intro a b c hab hbc
  cases a <;> cases b <;> cases c <;>
    simp only [pyLeP, pyLeB, pyRank, strLe, decide_eq_true_eq] at hab hbc ⊢ <;>
    first
      | rfl
      | omega
      | exact charListLe_trans _ _ _ hab hbc

/-- C3: the claim states grouped partitions are emitted in first-occurrence
order of the group value.  False on the source: `DataFrame.groupby` sorts
the group keys (default `sort=True`), so in `tGroup` — group values B then
A — the series for A is emitted before the series for B, while the spec's
first-occurrence order would put B first. -/
theorem c3_counterexample :
    buildSeries tGroup "x" "y" (some "g")
      = Except.ok [(some "A", [(PyVal.vint 2, PyVal.vint 7)]),
          (some "B", [(PyVal.vint 1, PyVal.vint 5)])]
    ∧ firstOccurrenceSeries tGroup "x" "y" "g"
      = [(some "B", [(PyVal.vint 1, PyVal.vint 5)]),
         (some "A", [(PyVal.vint 2, PyVal.vint 7)])]
    ∧ buildSeries tGroup "x" "y" (some "g")
      ≠ Except.ok (firstOccurrenceSeries tGroup "x" "y" "g") := by
  decide

/-- C3 (amended): with a present, non-empty grouping column and present axis
columns, the emitted series are one per distinct non-missing group value —
a permutation of the first-occurrence key list — ordered ascending by key
(the `groupby` sort order), each series containing exactly its partition's
`(x, y)` pairs in original row order. -/
theorem c3_grouped_series (t : Table) (x y gc : String)
    (hgc : gc ≠ "" ∧ gc ∈ t.cols) (hx : x ∈ t.cols) (hy : y ∈ t.cols) :
    buildSeries t x y (some gc)
      = Except.ok ((sortedKeys t gc).map
          (fun k => (some (pyStr k), pointsOf (groupRows t gc k) x y)))
    ∧ List.Sorted pyLeP (sortedKeys t gc)
    ∧ List.Perm (sortedKeys t gc) (distinctFirstOcc t gc) := by
  refine ⟨?_, List.sorted_insertionSort pyLeP _, List.perm_insertionSort pyLeP _⟩
  have hg : groupCond t (some gc) = some gc := by
    show (if gc ≠ "" ∧ gc ∈ t.cols then some gc else none) = some gc
    rw [if_pos hgc]
  unfold buildSeries
  rw [hg]
  simp only []
  by_cases hks : sortedKeys t gc = []
  · rw [if_pos hks, hks]
    rfl
  · rw [if_neg hks, if_pos ⟨hx, hy⟩]

/-- Witness for C3 (amended) on `tGroup`. -/
theorem c3_witness :
    buildSeries tGroup "x" "y" (some "g")
      = Except.ok ((sortedKeys tGroup "g").map
          (fun k => (some (pyStr k), pointsOf (groupRows tGroup "g" k) "x" "y")))
    ∧ List.Sorted pyLeP (sortedKeys tGroup "g")
    ∧ List.Perm (sortedKeys tGroup "g") (distinctFirstOcc tGroup "g") :=
  c3_grouped_series tGroup "x" "y" "g" ⟨by decide, by decide⟩ (by decide) (by decide)

/-- C2: the claim states an unsupported chart kind fails with a typed error
that propagates to the caller and is distinguishable from the "no data"
empty result.  False on the source: the `ValueError` of line 153 is caught
by the top-level `except Exception` (line 168), which returns the same
`Image(b"", "png")` that the no-data branch (line 118) returns — the caller
receives identical values for kind `"pie"` on good data and for a
successfully processed empty table. -/
theorem c2_counterexample :
    generate_plot tGood "pie" "x" "y" none = Image.empty
    ∧ generate_plot tNoData "line" "x" "y" none = Image.empty
    ∧ pipeline tGood "pie" "x" "y" none
        = Except.error "Unsupported plot type: pie" := by
  decide

/-- C2 (amended): for a request whose kind is not line/bar/scatter and whose
table is non-empty after cleaning, a `ValueError` is raised internally and
swallowed by the top-level handler: the caller receives the empty image,
identical to the no-data result, and nothing is rendered. -/
theorem c2_unsupported_kind (t : Table) (pt x y : String) (g : Option String)
    (t1 : Table) (hflat : flattenLoop t t.cols = Except.ok t1)
    (hne : (coerce_numeric (decodeLoop t1) y).rows ≠ [])
    (hk : strToLower pt ≠ "line" ∧ strToLower pt ≠ "bar" ∧ strToLower pt ≠ "scatter") :
    pipeline t pt x y g = Except.error (String.append "Unsupported plot type: " pt)
    ∧ generate_plot t pt x y g = Image.empty := by
  have hcond : ¬ (strToLower pt = "line" ∨ strToLower pt = "bar"
      ∨ strToLower pt = "scatter") := by
    rintro (h | h | h)
    · exact hk.1 h
    · exact hk.2.1 h
    · exact hk.2.2 h
  have hpipe : pipeline t pt x y g
      = Except.error (String.append "Unsupported plot type: " pt) := by
    unfold pipeline
    rw [hflat]
    simp only []
    rw [if_neg hne, if_neg hcond]
  refine ⟨hpipe, ?_⟩
  unfold generate_plot
  rw [hpipe]

/-- Witness for C2 (amended) at kind `"pie"` on a clean table. -/
theorem c2_witness :
    pipeline tGood "pie" "x" "y" none
      = Except.error (String.append "Unsupported plot type: " "pie")
    ∧ generate_plot tGood "pie" "x" "y" none = Image.empty :=
  c2_unsupported_kind tGood "pie" "x" "y" none tGood (by decide) (by decide)
    ⟨by decide, by decide, by decide⟩

/-- C9: a table with zero rows after normalization and coercion yields the
explicit empty result on the success path — `Except.ok Image.empty`, not an
error — and the caller sees the empty image. -/
theorem c9_empty_result (t : Table) (pt x y : String) (g : Option String)
    (t1 : Table) (hflat : flattenLoop t t.cols = Except.ok t1)
    (hempty : (coerce_numeric (decodeLoop t1) y).rows = []) :
    pipeline t pt x y g = Except.ok Image.empty
    ∧ generate_plot t pt x y g = Image.empty := by
  have hpipe : pipeline t pt x y g = Except.ok Image.empty := by
    unfold pipeline
    rw [hflat]
    simp only []
    rw [if_pos hempty]
  refine ⟨hpipe, ?_⟩
  unfold generate_plot
  rw [hpipe]

/-- Witness for C9: the single `y` cell `"bad"` is dropped by coercion. -/
theorem c9_witness :
    pipeline tNoData "line" "x" "y" none = Except.ok Image.empty
    ∧ generate_plot tNoData "line" "x" "y" none = Image.empty :=
  c9_empty_result tNoData "line" "x" "y" none tNoData (by decide) (by decide)

/-- C10: `generate_plot` is total — it is a plain function into `Image`, and
whenever the body raises (modelled: the pipeline returns `Except.error`) the
top-level handler returns the empty PNG value instead of propagating. -/
theorem c10_total (t : Table) (pt x y : String) (g : Option String) (e : String)
    (h : pipeline t pt x y g = Except.error e) :
    generate_plot t pt x y g = Image.empty := by
  unfold generate_plot
  rw [h]

/-- Witness for C10: a missing x column raises `KeyError` internally and the
caller still receives the empty image. -/
theorem c10_witness : generate_plot tMissingX "line" "x" "y" none = Image.empty :=
  c10_total tMissingX "line" "x" "y" none "KeyError" (by decide)

/-- Witness for C6 at the spec's own example. -/
theorem c6_witness :
    (explodeRow "c" rMerge)[0]? = some (mergeRecord rMerge kvsMerge)
    ∧ rowGet (mergeRecord rMerge kvsMerge) "Name" = some (PyVal.vstr "B")
    ∧ rowGet (mergeRecord rMerge kvsMerge) "Score" = some (PyVal.vint 5) := by
  have h := explode_merge_semantics rMerge "c" [PyVal.vdict kvsMerge] 0 kvsMerge
    (by decide) (by decide)
  exact ⟨h.1, h.2.2 "Name" (PyVal.vstr "B") (by decide) (by decide),
    h.2.2 "Score" (PyVal.vint 5) (by decide) (by decide)⟩

end PlotTool
